import Mathlib

/-!
Shallow embedding of the core logic of the `video-chapters` repository
(`src/core.py` and `src/config.py`): the subtitle-language catalog resolver
(`get_available_languages`, `_select_language`), the processing pipeline
(`process_video`, `process_with_gemini`, the prompt assembly), and the
bounded deduplicating instruction history (`add_instruction_to_history`).

Track catalogs are modelled by their key lists (Python dict iteration order
is insertion order, and only the keys are consulted by the resolver).
Python string operations are modelled over the character list of a `String`,
matching Python's character-based semantics.
-/

namespace VideoChapters

/-! ### Python string-operation models -/

/-- Model of Python `s.endswith(suffix)`. -/
def pyEndsWith (s suffix : String) : Bool :=
  List.isSuffixOf suffix.data s.data

/-- Model of Python `c in s` for a single character `c`. -/
def pyContains (s : String) (c : Char) : Bool :=
  s.data.contains c

/-- Helper for `pySplit`: accumulates the current piece (reversed). -/
def splitCharAux (c : Char) : List Char → List Char → List (List Char)
  | [], acc => [acc.reverse]
  | x :: xs, acc =>
    if x == c then acc.reverse :: splitCharAux c xs []
    else splitCharAux c xs (x :: acc)

/-- Model of Python `s.split(c)` for a one-character separator: splits at every
occurrence of `c`; never returns an empty list. -/
def pySplit (s : String) (c : Char) : List String :=
  (splitCharAux c s.data []).map (fun l => ⟨l⟩)

/-- Model of Python `s[:-n]` for `n ≥ 0` (drop the last `n` characters). -/
def pyDropRight (s : String) (n : Nat) : String :=
  ⟨s.data.take (s.data.length - n)⟩

/-- Model of Python `s[:n]` (first `n` characters). -/
def pyTake (s : String) (n : Nat) : String :=
  ⟨s.data.take n⟩

/-- Model of Python `len(s)` (number of characters). -/
def pyLen (s : String) : Nat :=
  s.data.length

/-- Characters stripped by Python `str.strip()` (ASCII whitespace). -/
def pyIsSpace (c : Char) : Bool :=
  c == ' ' || c == '\t' || c == '\n' || c == '\r' || c == '\x0b' || c == '\x0c'

/-- Model of Python `s.strip()`. -/
def pyStrip (s : String) : String :=
  ⟨((s.data.dropWhile pyIsSpace).reverse.dropWhile pyIsSpace).reverse⟩

/-- Model of Python truthiness of an `Optional[str]`: `None` and `""` are falsy. -/
def pyTruthyStr : Option String → Bool
  | none => false
  | some s => !s.data.isEmpty

/-- Python string `<=` (lexicographic by code point), on character lists. -/
def charListLe : List Char → List Char → Bool
  | [], _ => true
  | _ :: _, [] => false
  | a :: as, b :: bs => if a == b then charListLe as bs else decide (a < b)

/-- Insertion step of an insertion sort by `charListLe`. -/
def insertSorted (s : String) : List String → List String
  | [] => [s]
  | x :: xs => if charListLe s.data x.data then s :: x :: xs else x :: insertSorted s xs

/-- Insertion sort of strings by Python's lexicographic order. -/
def sortStrings : List String → List String
  | [] => []
  | x :: xs => insertSorted x (sortStrings xs)

/-- Model of Python `sorted(set(l))`: the sorted list of the distinct elements. -/
def pySortedSet (l : List String) : List String :=
  sortStrings l.dedup

/-! ### Language catalog classification (`get_available_languages`, core.py 133-189) -/

/-- The three-bucket result dict built by `get_available_languages` for a
non-empty catalog. -/
structure Classification where
  original : List String
  standard : List String
  auto_translated : List String
deriving DecidableEq, Repr

/-- First loop of `get_available_languages` (core.py 162-169): returns
`(orig_langs, regular_langs, covered_langs)`.  An identifier ending in `-orig`
contributes its base (identifier minus the 5-character suffix) to `orig_langs`
and `covered_langs`; an identifier with no hyphen is appended as-is to
`regular_langs` and `covered_langs`; other identifiers are skipped here. -/
def pass1 : List String → List String × List String × List String
  | [] => ([], [], [])
  | lang :: rest =>
    if pyEndsWith lang "-orig" then
      (pyDropRight lang 5 :: (pass1 rest).1, (pass1 rest).2.1,
        pyDropRight lang 5 :: (pass1 rest).2.2)
    else if pyContains lang '-' then pass1 rest
    else ((pass1 rest).1, lang :: (pass1 rest).2.1, lang :: (pass1 rest).2.2)

/-- Second loop of `get_available_languages` (core.py 171-176): for each
hyphenated identifier not ending in `-orig`, take `lang.split('-')[0]` as the
base language; if it is not yet covered, append it to `auto_langs` and mark it
covered. -/
def pass2 (covered : List String) : List String → List String
  | [] => []
  | lang :: rest =>
    if pyContains lang '-' && !pyEndsWith lang "-orig" then
      if (pySplit lang '-').headD "" ∈ covered then pass2 covered rest
      else (pySplit lang '-').headD "" :: pass2 (covered ++ [(pySplit lang '-').headD ""]) rest
    else pass2 covered rest

/-- The classification built from a non-empty catalog's key list
(core.py 156-182): each bucket is `sorted(set(...))` of the collected codes. -/
def classify (keys : List String) : Classification :=
  ⟨pySortedSet (pass1 keys).1, pySortedSet (pass1 keys).2.1,
    pySortedSet (pass2 (pass1 keys).2.2 keys)⟩

/-- `get_available_languages` restricted to its catalog-processing core
(core.py 149-182): Python returns the empty dict `{}` when the catalog is
empty (modelled as `none`), and otherwise the three-bucket dict (modelled as
`some (classify keys)`).  The network fetch and the exception fallback
(which also returns `{}`) are outside the model. -/
def get_available_languages (keys : List String) : Option Classification :=
  if keys.isEmpty then none else some (classify keys)

/-! ### Language selection (`_select_language`, core.py 195-232) -/

/-- Major languages for auto-selection priority (core.py 53-56). -/
def MAJOR_LANGUAGES : List String :=
  ["en", "es", "fr", "de", "it", "pt", "ru", "uk", "ja", "ko", "zh", "ar"]

/-- The candidate test of the auto-translated scan (core.py 206-210): a
hyphenated identifier not ending in `-orig` whose `split('-')` has exactly two
parts, one of which equals the requested language. -/
def isAutoCandidate (language : String) (k : String) : Bool :=
  pyContains k '-' && !pyEndsWith k "-orig" &&
    ((pySplit k '-').length == 2 &&
      ((pySplit k '-').headD "" == language || (pySplit k '-').getD 1 "" == language))

/-- The message of the `ValueError` raised at core.py 216. -/
def notFoundMsg (language : String) : String :=
  "Requested language '" ++ language ++ "' not found"

/-- Preference branch of `_select_language` (core.py 197-216), reached when the
caller-supplied language is truthy. -/
def selectWithPreference (keys : List String) (language : String) : Except String String :=
  if (language ++ "-orig") ∈ keys then .ok (language ++ "-orig")
  else if language ∈ keys then .ok language
  else
    match keys.filter (isAutoCandidate language) with
    | [] => .error (notFoundMsg language)
    | c :: cs =>
      match (c :: cs).filter (fun l => pyEndsWith l ("-" ++ language)) with
      | [] => .ok c
      | s :: _ => .ok s

/-- Automatic branch of `_select_language` (core.py 217-232): first identifier
ending in `-orig`, else the first major language present verbatim, else the
first key; an empty catalog raises `IndexError` at `available_langs[0]`. -/
def autoSelect (keys : List String) : Except String String :=
  match keys.filter (fun l => pyEndsWith l "-orig") with
  | o :: _ => .ok o
  | [] =>
    match MAJOR_LANGUAGES.find? (fun m => decide (m ∈ keys)) with
    | some m => .ok m
    | none =>
      match keys with
      | k :: _ => .ok k
      | [] => .error "list index out of range"

/-- `_select_language` (core.py 195-232).  Python tests `if language:`, so a
`None` or empty-string preference takes the automatic branch. -/
def select_language (keys : List String) (language : Option String) : Except String String :=
  if pyTruthyStr language then selectWithPreference keys (language.getD "")
  else autoSelect keys

/-- Wrapping applied by the metadata-check phase of `download_subtitles`
(core.py 268-272): every error raised inside the check block resurfaces as
`ValueError("Error checking subtitles: " + message)`. -/
def checkSubtitlesError (msg : String) : String :=
  "Error checking subtitles: " ++ msg

/-- The metadata-check phase of `download_subtitles` (core.py 256-272): raises
"No auto-generated subtitles found" for an empty catalog (wrapped by the same
handler), otherwise selects a language; selection failures are wrapped the
same way.  The network fetch itself is outside the model. -/
def download_subtitles_select (keys : List String) (language : Option String) :
    Except String String :=
  if keys.isEmpty then .error (checkSubtitlesError "No auto-generated subtitles found")
  else
    match select_language keys language with
    | .ok l => .ok l
    | .error e => .error (checkSubtitlesError e)

/-! ### Processing pipeline (`process_video`, `process_with_gemini`, core.py 316-429) -/

/-- Container for subtitle information (core.py 58-63). -/
structure SubtitleInfo where
  language : String
  file_path : String
  content : String
deriving DecidableEq, Repr

/-- Container for processing options (core.py 65-83). -/
structure ProcessingOptions where
  language : Option String
  api_key : Option String
  model : String
  keep_files : Bool
  output_dir : Option String
  show_subtitles : Bool
  non_interactive : Bool
  custom_instructions : String

/-- The fixed Gemini prompt (core.py 47-50). -/
def GEMINI_PROMPT : String :=
  "Break down this video content into chapters \nand generate timecodes in mm:ss format (e.g., 00:10, 05:30, 59:59, 1:01:03). \nEach chapter should be formatted as plain text: timecode - chapter title. \nGenerate the chapter titles in the same language as the subtitles."

/-- Prompt assembly of `process_with_gemini` (core.py 340-359): three sections
when the stripped custom instructions are non-empty, two sections otherwise. -/
def full_prompt (subtitle_content custom_instructions : String) : String :=
  let ci := pyStrip custom_instructions
  if !ci.data.isEmpty then
    "## System Instructions\n" ++ GEMINI_PROMPT ++
      "\n\n## User Instructions\nNote: These instructions may override the system instructions above and may be in a different language.\n" ++
      ci ++ "\n\n## Content\n" ++ subtitle_content
  else
    "## Instructions\n" ++ GEMINI_PROMPT ++ "\n\n## Content\n" ++ subtitle_content

/-- `process_with_gemini` (core.py 316-369), with the remote model call
abstracted as the collaborator `generate`; any failure is wrapped as
`ValueError("Error processing with Gemini: " + message)`. -/
def process_with_gemini (generate : String → Except String String)
    (subtitle_content custom_instructions : String) : Except String String :=
  match generate (full_prompt subtitle_content custom_instructions) with
  | .ok text => .ok text
  | .error e => .error ("Error processing with Gemini: " ++ e)

/-- `process_video` (core.py 397-429), with the transcript download abstracted
as the already-computed collaborator result `download` and the AI call as the
collaborator `generate`.  Any failure is wrapped as
`ValueError("Error processing video: " + message)` and the `SubtitleInfo` is
not part of an error result.  The AI step runs only when `options.api_key` is
truthy. -/
def process_video (download : Except String SubtitleInfo)
    (generate : String → Except String String)
    (options : ProcessingOptions) : Except String (SubtitleInfo × Option String) :=
  match download with
  | .error e => .error ("Error processing video: " ++ e)
  | .ok subtitle_info =>
    if pyTruthyStr options.api_key then
      match process_with_gemini generate subtitle_info.content options.custom_instructions with
      | .ok r => .ok (subtitle_info, some r)
      | .error e => .error ("Error processing video: " ++ e)
    else .ok (subtitle_info, none)

/-! ### Instruction history (`add_instruction_to_history`, config.py 296-332) -/

/-- One instruction-history entry (content, ISO timestamp modelled as `Nat`,
preview). -/
structure HistoryEntry where
  content : String
  timestamp : Nat
  preview : String
deriving DecidableEq, Repr

/-- Preview construction (config.py 323): first 100 characters plus `"..."`
when the instruction is longer than 100 characters. -/
def mkPreview (instruction : String) : String :=
  if pyLen instruction > 100 then pyTake instruction 100 ++ "..." else instruction

/-- The search/promote/append part of `add_instruction_to_history`
(config.py 306-325): the first entry with equal content is removed from its
position and re-appended at the end with its timestamp refreshed; if no entry
matches, a fresh entry is appended. -/
def promote (instruction : String) (now : Nat) : List HistoryEntry → List HistoryEntry
  | [] => [⟨instruction, now, mkPreview instruction⟩]
  | e :: rest =>
    if e.content == instruction then rest ++ [⟨e.content, now, e.preview⟩]
    else e :: promote instruction now rest

/-- Model of Python `l[-limit:]` for a non-negative `limit`: the last `limit`
elements, except that `l[-0:]` is the whole list. -/
def pyTailSlice (limit : Nat) (l : List HistoryEntry) : List HistoryEntry :=
  if limit == 0 then l else l.drop (l.length - limit)

/-- `add_instruction_to_history` (config.py 296-332) for a given current
history, limit and clock: a blank instruction is ignored; otherwise the
instruction is promoted or appended, and the list is trimmed to the last
`limit` entries when it exceeds the limit. -/
def add_instruction_to_history (history : List HistoryEntry) (limit : Nat)
    (instruction : String) (now : Nat) : List HistoryEntry :=
  if (pyStrip instruction).data.isEmpty then history
  else if limit < (promote instruction now history).length then
    pyTailSlice limit (promote instruction now history)
  else promote instruction now history

/-! ### Helper lemmas -/

/-- The base language an identifier covers: `-orig` identifiers cover the
identifier minus the suffix, hyphenated identifiers cover their first
hyphen-split part, plain identifiers cover themselves. -/
def baseLang (k : String) : String :=
  if pyEndsWith k "-orig" then pyDropRight k 5
  else if pyContains k '-' then (pySplit k '-').headD ""
  else k

theorem mem_insertSorted {x s : String} {l : List String} :
    x ∈ insertSorted s l ↔ x = s ∨ x ∈ l := by
  induction l with
  | nil => simp [insertSorted]
  | cons a t ih =>
    simp only [insertSorted]
    split
    · simp
    · simp only [List.mem_cons, ih]
      tauto

theorem mem_sortStrings {x : String} {l : List String} :
    x ∈ sortStrings l ↔ x ∈ l := by
  induction l with
  | nil => simp [sortStrings]
  | cons a t ih => simp [sortStrings, mem_insertSorted, ih]

theorem mem_pySortedSet {x : String} {l : List String} :
    x ∈ pySortedSet l ↔ x ∈ l := by
  simp [pySortedSet, mem_sortStrings, List.mem_dedup]

theorem pass1_covered (keys : List String) (x : String) :
    x ∈ (pass1 keys).2.2 ↔ x ∈ (pass1 keys).1 ∨ x ∈ (pass1 keys).2.1 := by
  induction keys with
  | nil => simp [pass1]
  | cons lang rest ih =>
    by_cases h1 : pyEndsWith lang "-orig" = true
    · simp only [pass1, if_pos h1, List.mem_cons, ih]
      tauto
    · by_cases h2 : pyContains lang '-' = true
      · simp only [pass1, if_neg h1, if_pos h2]
        exact ih
      · simp only [pass1, if_neg h1, if_neg h2, List.mem_cons, ih]
        tauto

theorem pass1_orig (keys : List String) (k : String) (hk : k ∈ keys)
    (h : pyEndsWith k "-orig" = true) : pyDropRight k 5 ∈ (pass1 keys).1 := by
  induction keys with
  | nil => simp at hk
  | cons lang rest ih =>
    rcases List.mem_cons.mp hk with rfl | hk'
    · simp only [pass1, if_pos h]
      exact List.mem_cons_self _ _
    · have hrec := ih hk'
      by_cases h1 : pyEndsWith lang "-orig" = true
      · simp only [pass1, if_pos h1]
        exact List.mem_cons_of_mem _ hrec
      · by_cases h2 : pyContains lang '-' = true
        · simp only [pass1, if_neg h1, if_pos h2]
          exact hrec
        · simp only [pass1, if_neg h1, if_neg h2]
          exact hrec

theorem pass1_plain (keys : List String) (k : String) (hk : k ∈ keys)
    (h : pyEndsWith k "-orig" = false) (hc : pyContains k '-' = false) :
    k ∈ (pass1 keys).2.1 := by
  induction keys with
  | nil => simp at hk
  | cons lang rest ih =>
    rcases List.mem_cons.mp hk with rfl | hk'
    · have h1' : ¬ pyEndsWith k "-orig" = true := by simp [h]
      have h2' : ¬ pyContains k '-' = true := by simp [hc]
      simp only [pass1, if_neg h1', if_neg h2']
      exact List.mem_cons_self _ _
    · have hrec := ih hk'
      by_cases h1 : pyEndsWith lang "-orig" = true
      · simp only [pass1, if_pos h1]
        exact hrec
      · by_cases h2 : pyContains lang '-' = true
        · simp only [pass1, if_neg h1, if_pos h2]
          exact hrec
        · simp only [pass1, if_neg h1, if_neg h2]
          exact List.mem_cons_of_mem _ hrec

theorem pass2_covers (keys : List String) :
    ∀ (covered : List String) (k : String), k ∈ keys →
      pyContains k '-' = true → pyEndsWith k "-orig" = false →
      (pySplit k '-').headD "" ∈ covered ∨ (pySplit k '-').headD "" ∈ pass2 covered keys := by
  induction keys with
  | nil =>
    intro covered k hk
    simp at hk
  | cons lang rest ih =>
    intro covered k hk hc ho
    rcases List.mem_cons.mp hk with rfl | hk'
    · have hcand : (pyContains k '-' && !pyEndsWith k "-orig") = true := by simp [hc, ho]
      by_cases hbc : (pySplit k '-').headD "" ∈ covered
      · exact Or.inl hbc
      · right
        simp only [pass2, if_pos hcand, if_neg hbc]
        exact List.mem_cons_self _ _
    · by_cases hcand : (pyContains lang '-' && !pyEndsWith lang "-orig") = true
      · by_cases hbc : (pySplit lang '-').headD "" ∈ covered
        · simp only [pass2, if_pos hcand, if_pos hbc]
          exact ih covered k hk' hc ho
        · simp only [pass2, if_pos hcand, if_neg hbc]
          rcases ih (covered ++ [(pySplit lang '-').headD ""]) k hk' hc ho with h | h
          · rcases List.mem_append.mp h with h | h
            · exact Or.inl h
            · simp only [List.mem_singleton] at h
              right
              rw [h]
              exact List.mem_cons_self _ _
          · right
            exact List.mem_cons_of_mem _ h
      · simp only [pass2, if_neg hcand]
        exact ih covered k hk' hc ho

theorem pass2_fresh (keys : List String) :
    ∀ (covered : List String) (b : String), b ∈ pass2 covered keys → b ∉ covered := by
  induction keys with
  | nil =>
    intro covered b hb
    simp [pass2] at hb
  | cons lang rest ih =>
    intro covered b hb
    by_cases hcand : (pyContains lang '-' && !pyEndsWith lang "-orig") = true
    · by_cases hbc : (pySplit lang '-').headD "" ∈ covered
      · simp only [pass2, if_pos hcand, if_pos hbc] at hb
        exact ih covered b hb
      · simp only [pass2, if_pos hcand, if_neg hbc] at hb
        rcases List.mem_cons.mp hb with rfl | hb'
        · exact hbc
        · intro hmem
          exact ih _ b hb' (List.mem_append.mpr (Or.inl hmem))
    · simp only [pass2, if_neg hcand] at hb
      exact ih covered b hb

/-- C1, as stated, is refuted by the catalog `{"en-orig": _, "en": _}`: the
plain-identifier branch of `get_available_languages` does not consult
`covered_langs`, so the base language `en` lands in both the `original` and the
`standard` bucket. -/
theorem classify_en_in_two_buckets :
    "en" ∈ (classify ["en-orig", "en"]).original ∧
    "en" ∈ (classify ["en-orig", "en"]).standard := by
  decide

/-- C1 (amended): for every Track Catalog, every base language covered by a
`-orig`, plain, or translated identifier appears in at least one of the three
buckets (no omissions), and the `auto_translated` bucket is disjoint from the
other two; however the `original` and `standard` buckets may share a base
language when both `b-orig` and `b` are catalog keys (see
`classify_en_in_two_buckets`), because the plain-identifier loop does not
consult the covered set. -/
theorem classify_coverage_auto_disjoint (keys : List String) :
    (∀ k ∈ keys, baseLang k ∈ (classify keys).original ∨
      baseLang k ∈ (classify keys).standard ∨
      baseLang k ∈ (classify keys).auto_translated) ∧
    (∀ b ∈ (classify keys).auto_translated,
      b ∉ (classify keys).original ∧ b ∉ (classify keys).standard) := by
  constructor
  · intro k hk
    unfold baseLang
    by_cases h1 : pyEndsWith k "-orig" = true
    · left
      simp only [if_pos h1, classify, mem_pySortedSet]
      exact pass1_orig keys k hk h1
    · by_cases h2 : pyContains k '-' = true
      · simp only [if_neg h1, if_pos h2]
        rcases pass2_covers keys (pass1 keys).2.2 k hk h2 (Bool.not_eq_true _ ▸ h1) with h | h
        · rcases (pass1_covered keys _).mp h with h' | h'
          · left
            simp only [classify, mem_pySortedSet]
            exact h'
          · right; left
            simp only [classify, mem_pySortedSet]
            exact h'
        · right; right
          simp only [classify, mem_pySortedSet]
          exact h
      · right; left
        simp only [if_neg h1, if_neg h2, classify, mem_pySortedSet]
        exact pass1_plain keys k hk (Bool.not_eq_true _ ▸ h1) (Bool.not_eq_true _ ▸ h2)
  · intro b hb
    simp only [classify, mem_pySortedSet] at hb ⊢
    have hfresh := pass2_fresh keys (pass1 keys).2.2 b hb
    rw [pass1_covered keys b] at hfresh
    push_neg at hfresh
    exact hfresh

/-- Witness for `classify_coverage_auto_disjoint` at the catalog
`{"en-orig": _, "de": _, "fr-en": _}`: `fr` is classified auto-translated and
is in neither of the other buckets. -/
theorem classify_coverage_auto_disjoint_witness :
    "fr" ∈ (classify ["en-orig", "de", "fr-en"]).auto_translated ∧
    "fr" ∉ (classify ["en-orig", "de", "fr-en"]).original ∧
    "fr" ∉ (classify ["en-orig", "de", "fr-en"]).standard :=
  ⟨by decide,
    (classify_coverage_auto_disjoint ["en-orig", "de", "fr-en"]).2 "fr" (by decide)⟩

/-- C2, as stated, is refuted: for the empty catalog `get_available_languages`
returns the empty dict `{}` (modelled `none`), which has no bucket keys at
all, not a dict with three empty-list buckets. -/
theorem get_available_languages_empty_not_buckets :
    get_available_languages [] ≠ some ⟨[], [], []⟩ := by
  decide

/-- C2 (amended): for the empty Track Catalog the classification operation
returns, without error, the empty mapping `{}` (modelled `none`) — signalling
"no subtitles available" — rather than a mapping holding the three bucket
keys with empty lists. -/
theorem get_available_languages_empty :
    get_available_languages [] = none := rfl

/-- Concrete subtitle fixture. -/
def si0 : SubtitleInfo :=
  ⟨"en-orig", "subs.srt", "hello subtitles"⟩

/-- Concrete options with an API key present. -/
def opts_with_key : ProcessingOptions :=
  ⟨none, some "KEY", "gemini-2.5-pro", false, none, false, false, ""⟩

/-- Concrete options with no API key. -/
def opts_no_key : ProcessingOptions :=
  ⟨none, none, "gemini-2.5-pro", false, none, false, false, ""⟩

/-- C3, as stated, is refuted: with a successful download and a failing AI
call, `process_video` raises (returns an error) and the `SubtitleInfo` is not
part of the result — the caller receives only the wrapped message. -/
theorem process_video_gemini_failure_drops_subtitles :
    process_video (Except.ok si0) (fun _ => Except.error "boom") opts_with_key =
      Except.error "Error processing video: Error processing with Gemini: boom" := by
  rfl

/-- C3 (amended): if the transcript download succeeds but the AI call fails,
`process_video` returns an error wrapping the Gemini failure; the
`SubtitleInfo` produced by the download step is not returned to the caller
(the transcript survives only as the on-disk file registered for cleanup). -/
theorem process_video_error_on_gemini_failure (si : SubtitleInfo)
    (opts : ProcessingOptions) (gen : String → Except String String) (e : String)
    (hkey : pyTruthyStr opts.api_key = true)
    (hgen : gen (full_prompt si.content opts.custom_instructions) = Except.error e) :
    process_video (Except.ok si) gen opts =
      Except.error ("Error processing video: " ++ ("Error processing with Gemini: " ++ e)) := by
  simp [process_video, process_with_gemini, hkey, hgen]

/-- Witness for `process_video_error_on_gemini_failure` at a concrete
download result and failing collaborator. -/
theorem process_video_error_on_gemini_failure_witness :
    pyTruthyStr opts_with_key.api_key = true ∧
    process_video (Except.ok si0) (fun _ => Except.error "boom") opts_with_key =
      Except.error ("Error processing video: " ++ ("Error processing with Gemini: " ++ "boom")) :=
  ⟨rfl, process_video_error_on_gemini_failure si0 opts_with_key
    (fun _ => Except.error "boom") "boom" rfl rfl⟩

/-- C7: with an empty or absent API key and a successful download,
`process_video` returns the `SubtitleInfo` paired with an absent AI text, and
the result does not depend on the AI collaborator at all (the collaborator is
never invoked); skipping the AI step is not an error. -/
theorem process_video_skips_gemini_without_key (si : SubtitleInfo)
    (opts : ProcessingOptions) (g g' : String → Except String String)
    (hkey : pyTruthyStr opts.api_key = false) :
    process_video (Except.ok si) g opts = Except.ok (si, none) ∧
    process_video (Except.ok si) g opts = process_video (Except.ok si) g' opts := by
  constructor <;> simp [process_video, hkey]

/-- Witness for `process_video_skips_gemini_without_key`: absent key, and two
observably different collaborators give the same successful result. -/
theorem process_video_skips_gemini_without_key_witness :
    pyTruthyStr opts_no_key.api_key = false ∧
    process_video (Except.ok si0) (fun _ => Except.error "x") opts_no_key =
      Except.ok (si0, none) ∧
    process_video (Except.ok si0) (fun _ => Except.error "x") opts_no_key =
      process_video (Except.ok si0) (fun _ => Except.ok "y") opts_no_key :=
  ⟨rfl,
    (process_video_skips_gemini_without_key si0 opts_no_key
      (fun _ => Except.error "x") (fun _ => Except.ok "y") rfl).1,
    (process_video_skips_gemini_without_key si0 opts_no_key
      (fun _ => Except.error "x") (fun _ => Except.ok "y") rfl).2⟩

theorem truthy_of_ne_empty (p : String) (hp : p ≠ "") :
    pyTruthyStr (some p) = true := by
  obtain ⟨d⟩ := p
  cases d with
  | nil => exact absurd rfl hp
  | cons a t => rfl

/-- A non-empty preference takes the preference branch of `_select_language`
(Python `if language:`). -/
theorem select_language_some (keys : List String) (p : String) (hp : p ≠ "") :
    select_language keys (some p) = selectWithPreference keys p := by
  simp [select_language, truthy_of_ne_empty p hp]

/-- `None` (and likewise the empty string) takes the automatic branch. -/
theorem select_language_none (keys : List String) :
    select_language keys none = autoSelect keys := rfl

/-- With no `-orig` match, no verbatim match and no auto-translated candidate,
the preference branch raises the not-found `ValueError`. -/
theorem selectWithPreference_error_of_no_candidate (keys : List String) (p : String)
    (h1 : (p ++ "-orig") ∉ keys) (h2 : p ∉ keys)
    (hf : keys.filter (isAutoCandidate p) = []) :
    selectWithPreference keys p = Except.error (notFoundMsg p) := by
  unfold selectWithPreference
  rw [if_neg h1, if_neg h2, hf]

theorem data_append (s t : String) : (s ++ t).data = s.data ++ t.data := by
  obtain ⟨a⟩ := s
  obtain ⟨b⟩ := t
  rfl

theorem append_cons_ne {x y : Char} (h : x ≠ y) :
    ∀ (u p q : List Char), u ++ x :: p ≠ u ++ y :: q := by
  intro u p q
  induction u with
  | nil =>
    intro hc
    injection hc with h1 _
    exact h h1
  | cons a u ih =>
    intro hc
    injection hc with _ h2
    exact ih h2


/-- The wrapped not-found message differs, for every requested language, from
the wrapped empty-catalog message: the caller can tell the two conditions
apart. -/
theorem notFound_ne_noSubs (p : String) :
    checkSubtitlesError (notFoundMsg p) ≠
      checkSubtitlesError "No auto-generated subtitles found" := by
  intro hEq
  unfold checkSubtitlesError notFoundMsg at hEq
  have h0 := congrArg String.data hEq
  rw [data_append, data_append] at h0
  have h1 := List.append_cancel_left h0
  rw [data_append] at h1
  have h2 : some 'R' = some 'N' := congrArg List.head? h1
  exact absurd (Option.some.inj h2) (by decide)

/-- Candidate scan, case "some candidate translates into the preference": the
first such candidate is returned. -/
theorem selectWithPreference_into (keys : List String) (p c s : String)
    (cs ss : List String) (h1 : (p ++ "-orig") ∉ keys) (h2 : p ∉ keys)
    (hf : keys.filter (isAutoCandidate p) = c :: cs)
    (hs : (c :: cs).filter (fun l => pyEndsWith l ("-" ++ p)) = s :: ss) :
    selectWithPreference keys p = Except.ok s := by
  unfold selectWithPreference
  rw [if_neg h1, if_neg h2]
  simp only [hf, hs]

/-- Candidate scan, case "no candidate translates into the preference": the
first candidate is returned. -/
theorem selectWithPreference_source (keys : List String) (p c : String)
    (cs : List String) (h1 : (p ++ "-orig") ∉ keys) (h2 : p ∉ keys)
    (hf : keys.filter (isAutoCandidate p) = c :: cs)
    (hs : (c :: cs).filter (fun l => pyEndsWith l ("-" ++ p)) = []) :
    selectWithPreference keys p = Except.ok c := by
  unfold selectWithPreference
  rw [if_neg h1, if_neg h2]
  simp only [hf, hs]

/-- Automatic branch, case "some identifier ends in `-orig`". -/
theorem autoSelect_orig (keys : List String) (o : String) (os : List String)
    (ho : keys.filter (fun l => pyEndsWith l "-orig") = o :: os) :
    autoSelect keys = Except.ok o := by
  unfold autoSelect
  simp only [ho]

/-- Automatic branch, case "no `-orig` identifier, a major language present". -/
theorem autoSelect_major (keys : List String) (m : String)
    (ho : keys.filter (fun l => pyEndsWith l "-orig") = [])
    (hm : MAJOR_LANGUAGES.find? (fun x => decide (x ∈ keys)) = some m) :
    autoSelect keys = Except.ok m := by
  unfold autoSelect
  simp only [ho, hm]

/-- Automatic branch, case "no `-orig` identifier, no major language": the
first catalog key is returned. -/
theorem autoSelect_first (k : String) (t : List String)
    (ho : (k :: t).filter (fun l => pyEndsWith l "-orig") = [])
    (hm : MAJOR_LANGUAGES.find? (fun x => decide (x ∈ k :: t)) = none) :
    autoSelect (k :: t) = Except.ok k := by
  unfold autoSelect
  simp only [ho, hm]

/-- C4: if `p-orig` is not a key, `p` is not a key, and no hyphenated
non-`-orig` identifier has `p` as either of its two hyphen-split parts, the
selection operation fails with the not-found `ValueError` naming `p`; through
`download_subtitles` this surfaces as a message distinct from the
empty-catalog "No auto-generated subtitles found" message, so the caller can
distinguish the two conditions.  The hypothesis `p ≠ ""` states that a
preference is actually given (Python `if language:`). -/
theorem select_language_not_found (keys : List String) (p : String) (hp : p ≠ "")
    (h1 : (p ++ "-orig") ∉ keys) (h2 : p ∉ keys)
    (h3 : ∀ k ∈ keys, pyContains k '-' = true → pyEndsWith k "-orig" = false →
      ¬((pySplit k '-').length = 2 ∧
        ((pySplit k '-').headD "" = p ∨ (pySplit k '-').getD 1 "" = p))) :
    select_language keys (some p) = Except.error (notFoundMsg p) ∧
    (keys ≠ [] → download_subtitles_select keys (some p) =
      Except.error (checkSubtitlesError (notFoundMsg p))) ∧
    download_subtitles_select [] (some p) =
      Except.error (checkSubtitlesError "No auto-generated subtitles found") ∧
    checkSubtitlesError (notFoundMsg p) ≠
      checkSubtitlesError "No auto-generated subtitles found" := by
  have hf : keys.filter (isAutoCandidate p) = [] := by
    rw [List.filter_eq_nil_iff]
    intro k hk
    by_cases hc : pyContains k '-' = true
    · by_cases ho : pyEndsWith k "-orig" = true
      · simp [isAutoCandidate, ho]
      · have ho' : pyEndsWith k "-orig" = false := Bool.not_eq_true _ ▸ ho
        have hno := h3 k hk hc ho'
        simp only [isAutoCandidate, hc, ho', Bool.not_false, Bool.true_and,
          Bool.and_eq_true, Bool.or_eq_true, beq_iff_eq]
        exact hno
    · simp [isAutoCandidate, hc]
  have hsel : select_language keys (some p) = Except.error (notFoundMsg p) := by
    rw [select_language_some keys p hp]
    exact selectWithPreference_error_of_no_candidate keys p h1 h2 hf
  refine ⟨hsel, ?_, rfl, notFound_ne_noSubs p⟩
  intro hne
  unfold download_subtitles_select
  rw [if_neg (by simpa using hne), hsel]

/-- Witness for `select_language_not_found` at catalog
`{"de": _, "fr-it": _}` and preference `en`. -/
theorem select_language_not_found_witness :
    (("en" : String) ++ "-orig") ∉ ["de", "fr-it"] ∧
    (select_language ["de", "fr-it"] (some "en") = Except.error (notFoundMsg "en") ∧
      (["de", "fr-it"] ≠ ([] : List String) →
        download_subtitles_select ["de", "fr-it"] (some "en") =
          Except.error (checkSubtitlesError (notFoundMsg "en"))) ∧
      download_subtitles_select [] (some "en") =
        Except.error (checkSubtitlesError "No auto-generated subtitles found") ∧
      checkSubtitlesError (notFoundMsg "en") ≠
        checkSubtitlesError "No auto-generated subtitles found") :=
  ⟨by decide,
    select_language_not_found ["de", "fr-it"] "en" (by decide) (by decide) (by decide)
      (by decide)⟩

/-- C5: with no `-orig` or verbatim match but at least one auto-translated
candidate, selection returns a candidate, and whenever some candidate ends in
`-p` (a translation into `p`) the returned identifier ends in `-p`; the
catalog `{"fr": _, "en-fr": _}` with preference `en` yields `en-fr`. -/
theorem select_language_prefers_translation_into (keys : List String) (p : String)
    (hp : p ≠ "") (h1 : (p ++ "-orig") ∉ keys) (h2 : p ∉ keys)
    (h3 : keys.filter (isAutoCandidate p) ≠ []) :
    (∃ r, select_language keys (some p) = Except.ok r ∧
      r ∈ keys.filter (isAutoCandidate p) ∧
      ((∃ c ∈ keys.filter (isAutoCandidate p), pyEndsWith c ("-" ++ p) = true) →
        pyEndsWith r ("-" ++ p) = true)) ∧
    select_language ["fr", "en-fr"] (some "en") = Except.ok "en-fr" := by
  refine ⟨?_, rfl⟩
  obtain ⟨c, cs, hf⟩ := List.exists_cons_of_ne_nil h3
  cases hs : (c :: cs).filter (fun l => pyEndsWith l ("-" ++ p)) with
  | nil =>
    refine ⟨c, ?_, ?_, ?_⟩
    · rw [select_language_some keys p hp]
      exact selectWithPreference_source keys p c cs h1 h2 hf hs
    · rw [hf]
      exact List.mem_cons_self _ _
    · rintro ⟨c', hc', hend⟩
      rw [hf] at hc'
      have hmem : c' ∈ (c :: cs).filter (fun l => pyEndsWith l ("-" ++ p)) :=
        List.mem_filter.mpr ⟨hc', hend⟩
      rw [hs] at hmem
      simp at hmem
  | cons s ss =>
    have hmem : s ∈ (c :: cs).filter (fun l => pyEndsWith l ("-" ++ p)) := by
      rw [hs]
      exact List.mem_cons_self _ _
    have hsp := List.mem_filter.mp hmem
    refine ⟨s, ?_, ?_, fun _ => hsp.2⟩
    · rw [select_language_some keys p hp]
      exact selectWithPreference_into keys p c s cs ss h1 h2 hf hs
    · rw [hf]
      exact hsp.1

/-- Witness for `select_language_prefers_translation_into` at catalog
`{"fr": _, "en-fr": _}` and preference `en` (end-to-end scenario B). -/
theorem select_language_prefers_translation_into_witness :
    ["fr", "en-fr"].filter (isAutoCandidate "en") ≠ [] ∧
    ((∃ r, select_language ["fr", "en-fr"] (some "en") = Except.ok r ∧
      r ∈ ["fr", "en-fr"].filter (isAutoCandidate "en") ∧
      ((∃ c ∈ ["fr", "en-fr"].filter (isAutoCandidate "en"),
          pyEndsWith c ("-" ++ "en") = true) →
        pyEndsWith r ("-" ++ "en") = true)) ∧
    select_language ["fr", "en-fr"] (some "en") = Except.ok "en-fr") :=
  ⟨by decide,
    select_language_prefers_translation_into ["fr", "en-fr"] "en" (by decide) (by decide)
      (by decide) (by decide)⟩

/-- C6: for every non-empty catalog in automatic mode, selection returns the
first `-orig` identifier whenever one exists; only if none exists does it
return the first major-language code present verbatim (in the fixed
`MAJOR_LANGUAGES` order), and only failing that the first catalog key. -/
theorem auto_select_prefers_orig (keys : List String) (h : keys ≠ []) :
    (∃ r, select_language keys none = Except.ok r ∧ r ∈ keys ∧
      ((∃ k ∈ keys, pyEndsWith k "-orig" = true) → pyEndsWith r "-orig" = true) ∧
      ((∀ k ∈ keys, pyEndsWith k "-orig" = false) →
        (∀ m, MAJOR_LANGUAGES.find? (fun x => decide (x ∈ keys)) = some m → r = m) ∧
        (MAJOR_LANGUAGES.find? (fun x => decide (x ∈ keys)) = none → r = keys.headD ""))) ∧
    select_language ["en-orig", "de"] none = Except.ok "en-orig" := by
  refine ⟨?_, rfl⟩
  rw [select_language_none]
  cases ho : keys.filter (fun l => pyEndsWith l "-orig") with
  | cons o os =>
    have hmem : o ∈ keys.filter (fun l => pyEndsWith l "-orig") := by
      rw [ho]
      exact List.mem_cons_self _ _
    have hoo := List.mem_filter.mp hmem
    refine ⟨o, autoSelect_orig keys o os ho, hoo.1, fun _ => hoo.2, ?_⟩
    intro hnone
    exact absurd hoo.2 (by simp [hnone o hoo.1])
  | nil =>
    have hnoorig : ∀ k ∈ keys, pyEndsWith k "-orig" = false := fun k hk =>
      Bool.not_eq_true _ ▸ (List.filter_eq_nil_iff.mp ho k hk)
    cases hm : MAJOR_LANGUAGES.find? (fun x => decide (x ∈ keys)) with
    | some m =>
      have hmk : m ∈ keys := by simpa using List.find?_some hm
      refine ⟨m, autoSelect_major keys m ho hm, hmk, ?_, ?_⟩
      · rintro ⟨k, hk, hko⟩
        exact absurd hko (by simp [hnoorig k hk])
      · intro _
        exact ⟨fun m' hm' => Option.some.inj hm', fun hnone => absurd hnone (by simp)⟩
    | none =>
      cases keys with
      | nil => exact absurd rfl h
      | cons k t =>
        refine ⟨k, autoSelect_first k t ho hm, List.mem_cons_self _ _, ?_, ?_⟩
        · rintro ⟨k', hk', hko⟩
          exact absurd hko (by simp [hnoorig k' hk'])
        · intro _
          exact ⟨fun m' hm' => absurd hm' (by simp), fun _ => rfl⟩

/-- Witness for `auto_select_prefers_orig` at catalog
`{"en-orig": _, "de": _}` (end-to-end scenario A). -/
theorem auto_select_prefers_orig_witness :
    (["en-orig", "de"] : List String) ≠ [] ∧
    ((∃ r, select_language ["en-orig", "de"] none = Except.ok r ∧ r ∈ ["en-orig", "de"] ∧
      ((∃ k ∈ ["en-orig", "de"], pyEndsWith k "-orig" = true) →
        pyEndsWith r "-orig" = true) ∧
      ((∀ k ∈ ["en-orig", "de"], pyEndsWith k "-orig" = false) →
        (∀ m, MAJOR_LANGUAGES.find? (fun x => decide (x ∈ ["en-orig", "de"])) = some m →
          r = m) ∧
        (MAJOR_LANGUAGES.find? (fun x => decide (x ∈ ["en-orig", "de"])) = none →
          r = ["en-orig", "de"].headD ""))) ∧
    select_language ["en-orig", "de"] none = Except.ok "en-orig") :=
  ⟨by decide, auto_select_prefers_orig ["en-orig", "de"] (by decide)⟩

/-- C10: a hyphenated non-`-orig` identifier whose split on `-` has three or
more parts is never collected as an auto-translated candidate; a catalog
whose hyphenated non-`-orig` keys all contain two or more hyphens therefore
leads to the not-found failure for any preference not matched verbatim or via
`-orig`. -/
theorem select_language_ignores_multi_hyphen (keys : List String) (p : String)
    (hp : p ≠ "") (h1 : (p ++ "-orig") ∉ keys) (h2 : p ∉ keys)
    (h3 : ∀ k ∈ keys, pyContains k '-' = true → pyEndsWith k "-orig" = false →
      3 ≤ (pySplit k '-').length) :
    keys.filter (isAutoCandidate p) = [] ∧
    select_language keys (some p) = Except.error (notFoundMsg p) := by
  have hf : keys.filter (isAutoCandidate p) = [] := by
    rw [List.filter_eq_nil_iff]
    intro k hk
    by_cases hc : pyContains k '-' = true
    · by_cases ho : pyEndsWith k "-orig" = true
      · simp [isAutoCandidate, ho]
      · have ho' : pyEndsWith k "-orig" = false := Bool.not_eq_true _ ▸ ho
        have hlen := h3 k hk hc ho'
        simp only [isAutoCandidate, hc, ho', Bool.not_false, Bool.true_and,
          Bool.and_eq_true, Bool.or_eq_true, beq_iff_eq]
        rintro ⟨hlen2, -⟩
        omega
    · simp [isAutoCandidate, hc]
  refine ⟨hf, ?_⟩
  rw [select_language_some keys p hp]
  exact selectWithPreference_error_of_no_candidate keys p h1 h2 hf

/-- Witness for `select_language_ignores_multi_hyphen` at catalog
`{"zh-Hans-en": _}` and preference `en`. -/
theorem select_language_ignores_multi_hyphen_witness :
    ("en" : String) ≠ "" ∧
    (["zh-Hans-en"].filter (isAutoCandidate "en") = [] ∧
      select_language ["zh-Hans-en"] (some "en") = Except.error (notFoundMsg "en")) :=
  ⟨by decide,
    select_language_ignores_multi_hyphen ["zh-Hans-en"] "en" (by decide) (by decide)
      (by decide) (by decide)⟩

theorem promote_ne_nil (c : String) (now : Nat) (l : List HistoryEntry) :
    promote c now l ≠ [] := by
  cases l with
  | nil => simp [promote]
  | cons e rest =>
    unfold promote
    split
    · simp
    · simp

theorem promote_length (c : String) (now : Nat) (l : List HistoryEntry) :
    l.length ≤ (promote c now l).length ∧ (promote c now l).length ≤ l.length + 1 := by
  induction l with
  | nil => simp [promote]
  | cons e rest ih =>
    obtain ⟨ih1, ih2⟩ := ih
    unfold promote
    split
    · simp [List.length_append]
    · simp only [List.length_cons]
      omega

/-- When the history holds exactly one entry with the given content, `promote`
removes it and re-appends it at the end with the refreshed timestamp, leaving
a prefix free of that content and the overall length unchanged. -/
theorem promote_found (c : String) (now : Nat) (history : List HistoryEntry)
    (hone : (history.filter (fun e => e.content == c)).length = 1) :
    ∃ pre pv, promote c now history = pre ++ [⟨c, now, pv⟩] ∧
      pre.filter (fun e => e.content == c) = [] ∧ pre.length + 1 = history.length := by
  induction history with
  | nil => simp at hone
  | cons e rest ih =>
    by_cases he : (e.content == c) = true
    · have hec : e.content = c := by simpa using he
      have hfc : List.filter (fun x => x.content == c) (e :: rest) =
          e :: List.filter (fun x => x.content == c) rest :=
        List.filter_cons_of_pos (by simpa using he)
      have hrest : rest.filter (fun x => x.content == c) = [] := by
        have h1 : (List.filter (fun x => x.content == c) (e :: rest)).length = 1 := hone
        rw [hfc] at h1
        simp only [List.length_cons] at h1
        have h2 : (List.filter (fun x => x.content == c) rest).length = 0 := by omega
        exact List.length_eq_zero.mp h2
      refine ⟨rest, e.preview, ?_, hrest, by simp⟩
      unfold promote
      rw [if_pos he, hec]
    · have hfc : List.filter (fun x => x.content == c) (e :: rest) =
          List.filter (fun x => x.content == c) rest :=
        List.filter_cons_of_neg (by simpa using he)
      have hone' : (rest.filter (fun x => x.content == c)).length = 1 := by
        have h1 : (List.filter (fun x => x.content == c) (e :: rest)).length = 1 := hone
        rw [hfc] at h1
        exact h1
      obtain ⟨pre, pv, hp, hfil, hlen⟩ := ih hone'
      refine ⟨e :: pre, pv, ?_, ?_, by simp only [List.length_cons]; omega⟩
      · unfold promote
        rw [if_neg he, hp]
        rfl
      · have hfc2 : List.filter (fun x => x.content == c) (e :: pre) =
            List.filter (fun x => x.content == c) pre :=
          List.filter_cons_of_neg (by simpa using he)
        rw [hfc2, hfil]

/-- For a non-blank instruction, the stored result of `add` is a tail segment
of the promoted list, and it is never emptied (Python `l[-limit:]` keeps the
whole list when `limit` is `0` and at least one element otherwise). -/
theorem add_nonblank_eq_drop (history : List HistoryEntry) (limit : Nat)
    (c : String) (now : Nat) (hblank : (pyStrip c).data.isEmpty = false) :
    ∃ n, n + 1 ≤ (promote c now history).length ∧
      add_instruction_to_history history limit c now = (promote c now history).drop n := by
  have hpos : 1 ≤ (promote c now history).length :=
    List.length_pos.mpr (promote_ne_nil c now history)
  unfold add_instruction_to_history
  rw [if_neg (by simp [hblank])]
  by_cases hlt : limit < (promote c now history).length
  · rw [if_pos hlt]
    unfold pyTailSlice
    by_cases h0 : (limit == 0) = true
    · rw [if_pos h0]
      exact ⟨0, hpos, by simp⟩
    · rw [if_neg h0]
      refine ⟨(promote c now history).length - limit, ?_, rfl⟩
      have hl0 : limit ≠ 0 := by simpa using h0
      omega
  · rw [if_neg hlt]
    exact ⟨0, hpos, by simp⟩

/-- C8: adding a content string of which the history holds exactly one entry
(the store's invariant) keeps exactly one entry with that content, positions
it last with its timestamp refreshed to the add's time, and creates no new
entry (the length does not grow). -/
theorem add_existing_promotes (history : List HistoryEntry) (limit : Nat)
    (c : String) (now : Nat)
    (hblank : (pyStrip c).data.isEmpty = false)
    (hone : (history.filter (fun e => e.content == c)).length = 1) :
    ((add_instruction_to_history history limit c now).filter
        (fun e => e.content == c)).length = 1 ∧
    (∃ e, (add_instruction_to_history history limit c now).getLast? = some e ∧
      e.content = c ∧ e.timestamp = now) ∧
    (add_instruction_to_history history limit c now).length ≤ history.length := by
  obtain ⟨pre, pv, hp, hfil, hlen⟩ := promote_found c now history hone
  obtain ⟨n, hn, hd⟩ := add_nonblank_eq_drop history limit c now hblank
  rw [hp] at hn hd
  simp only [List.length_append, List.length_singleton] at hn
  have hnle : n ≤ pre.length := by omega
  rw [List.drop_append_of_le_length hnle] at hd
  rw [hd]
  refine ⟨?_, ⟨⟨c, now, pv⟩, List.getLast?_concat _, rfl, rfl⟩, ?_⟩
  · rw [List.filter_append]
    have hsub : (List.drop n pre).filter (fun e => e.content == c) = [] := by
      have hsubl := (List.drop_sublist n pre).filter (fun e => e.content == c)
      rw [hfil] at hsubl
      exact List.sublist_nil.mp hsubl
    rw [hsub]
    simp
  · simp only [List.length_append, List.length_drop, List.length_singleton]
    omega

/-- Witness for `add_existing_promotes`: re-adding `"a"` to the two-entry
history `[a@0, b@1]` at time `5` keeps one `"a"` entry, now last and stamped
`5`, without growing the history. -/
theorem add_existing_promotes_witness :
    (pyStrip "a").data.isEmpty = false ∧
    (([⟨"a", 0, "a"⟩, ⟨"b", 1, "b"⟩] : List HistoryEntry).filter
        (fun e => e.content == "a")).length = 1 ∧
    (((add_instruction_to_history [⟨"a", 0, "a"⟩, ⟨"b", 1, "b"⟩] 10 "a" 5).filter
        (fun e => e.content == "a")).length = 1 ∧
      (∃ e, (add_instruction_to_history [⟨"a", 0, "a"⟩, ⟨"b", 1, "b"⟩] 10 "a" 5).getLast? =
          some e ∧ e.content = "a" ∧ e.timestamp = 5) ∧
      (add_instruction_to_history [⟨"a", 0, "a"⟩, ⟨"b", 1, "b"⟩] 10 "a" 5).length ≤
        ([⟨"a", 0, "a"⟩, ⟨"b", 1, "b"⟩] : List HistoryEntry).length) :=
  ⟨by decide, by decide,
    add_existing_promotes [⟨"a", 0, "a"⟩, ⟨"b", 1, "b"⟩] 10 "a" 5 (by decide) (by decide)⟩

/-- C9: for a positive capacity, an add never leaves the history above the
capacity; a non-blank add to a history at (or beyond) capacity leaves exactly
`limit` entries, dropping the oldest first; and with capacity `2`, adding
`"a"`, `"b"`, `"c"` in order leaves exactly the contents `["b", "c"]`
(end-to-end scenario E). -/
theorem add_capacity_bound (history : List HistoryEntry) (limit : Nat)
    (instruction : String) (now : Nat) (hlim : 1 ≤ limit) :
    (history.length ≤ limit →
      (add_instruction_to_history history limit instruction now).length ≤ limit) ∧
    ((pyStrip instruction).data.isEmpty = false → limit ≤ history.length →
      (add_instruction_to_history history limit instruction now).length = limit) ∧
    (add_instruction_to_history (add_instruction_to_history
        (add_instruction_to_history [] 2 "a" 0) 2 "b" 1) 2 "c" 2).map
      (fun e => e.content) = ["b", "c"] := by
  refine ⟨?_, ?_, by decide⟩
  · intro hle
    by_cases hblank : (pyStrip instruction).data.isEmpty = true
    · unfold add_instruction_to_history
      rw [if_pos hblank]
      exact hle
    · unfold add_instruction_to_history
      rw [if_neg hblank]
      by_cases hlt : limit < (promote instruction now history).length
      · rw [if_pos hlt]
        unfold pyTailSlice
        rw [if_neg (by simp only [beq_iff_eq]; omega)]
        simp only [List.length_drop]
        omega
      · rw [if_neg hlt]
        omega
  · intro hblank hge
    obtain ⟨hl1, hl2⟩ := promote_length instruction now history
    unfold add_instruction_to_history
    rw [if_neg (by simp [hblank])]
    by_cases hlt : limit < (promote instruction now history).length
    · rw [if_pos hlt]
      unfold pyTailSlice
      rw [if_neg (by simp only [beq_iff_eq]; omega)]
      simp only [List.length_drop]
      omega
    · rw [if_neg hlt]
      omega

/-- Witness for `add_capacity_bound`: adding `"c"` to the full two-entry
history `[a@0, b@1]` at capacity `2`. -/
theorem add_capacity_bound_witness :
    1 ≤ 2 ∧
    ((([⟨"a", 0, "a"⟩, ⟨"b", 1, "b"⟩] : List HistoryEntry).length ≤ 2 →
      (add_instruction_to_history [⟨"a", 0, "a"⟩, ⟨"b", 1, "b"⟩] 2 "c" 2).length ≤ 2) ∧
    ((pyStrip "c").data.isEmpty = false →
      2 ≤ ([⟨"a", 0, "a"⟩, ⟨"b", 1, "b"⟩] : List HistoryEntry).length →
      (add_instruction_to_history [⟨"a", 0, "a"⟩, ⟨"b", 1, "b"⟩] 2 "c" 2).length = 2) ∧
    (add_instruction_to_history (add_instruction_to_history
        (add_instruction_to_history [] 2 "a" 0) 2 "b" 1) 2 "c" 2).map
      (fun e => e.content) = ["b", "c"]) :=
  ⟨by decide, add_capacity_bound [⟨"a", 0, "a"⟩, ⟨"b", 1, "b"⟩] 2 "c" 2 (by decide)⟩

end VideoChapters
